import Mathlib

/-
  Verification of the URL-shortener core (internal/persistence/sqlite.go,
  internal/core/core.go, internal/types/types.go).

  The SQLite table `urls (original TEXT UNIQUE, short TEXT UNIQUE)` is
  embedded as a list of rows.  Database I/O failures are injected through
  explicit fault parameters; the SQL queries `SELECT ... WHERE original = ?`,
  `SELECT ... WHERE short = ?` and `INSERT INTO urls` become list lookups and
  an append guarded by the uniqueness constraints.  Go's error values and
  `fmt.Errorf("...: %w", err)` wrapping become an inductive error type with an
  `errors.Is`-style unwrapping test.
-/

namespace UrlShortener

/-- The alphabet constant `base62Chars` from sqlite.go. -/
def base62Chars : String := "0123456789abcdefghijklmnopqrstuvwxyzABCDEFGHIJKLMNOPQRSTUVWXYZ"

/-- The constant `shortCodeLength` from sqlite.go. -/
def shortCodeLength : Nat := 6

/-- Go error values relevant to the core: `types.ErrNotFound`, an opaque
database-driver failure carrying its message, and `fmt.Errorf("ctx: %w", e)`
wrapping. -/
inductive GoError where
  | notFound : GoError
  | dbFailure (msg : String) : GoError
  | wrapped (ctx : String) (inner : GoError) : GoError
deriving DecidableEq, Repr

/-- Go's `errors.Is`: the target matches the error itself or anything in its
unwrap chain. -/
def errorsIs : GoError → GoError → Bool
  | e@(GoError.wrapped _ inner), t => decide (e = t) || errorsIs inner t
  | e, t => decide (e = t)

/-- One row of the `urls` table (the AUTOINCREMENT id is storage-internal and
carries no behaviour, so it is omitted). -/
structure URLRow where
  original : String
  short : String
deriving DecidableEq, Repr

/-- The state of the `urls` table. -/
abbrev Store := List URLRow

/-- Injected database-I/O fault for a `Save` call: either the initial SELECT
or the INSERT statement can fail with a driver error. -/
inductive DBFault where
  | ok : DBFault
  | onQuery (msg : String) : DBFault
  | onInsert (msg : String) : DBFault
deriving DecidableEq

/-- SQLite's message for a duplicate-key violation of the UNIQUE constraint
on `short`. -/
def uniqueShortViolation : String := "UNIQUE constraint failed: urls.short"

/-- `SELECT short FROM urls WHERE original = ?` -/
def selectShortByOriginal (st : Store) (orig : String) : Option String :=
  (st.find? fun r => r.original = orig).map (fun r => r.short)

/-- `SELECT original FROM urls WHERE short = ?` -/
def selectOriginalByShort (st : Store) (code : String) : Option String :=
  (st.find? fun r => r.short = code).map (fun r => r.original)

/-- `SQLitePersistence.Save`: look up an existing mapping for `originalURL`
and return its short code if present; otherwise insert `(originalURL, gen)`
where `gen` is the freshly generated code.  The INSERT errors when `gen`
violates the UNIQUE constraint on `short`; there is no retry.  Returns the
Go result together with the table state after the call. -/
def save (st : Store) (originalURL : String) (gen : String) (f : DBFault) :
    Except GoError String × Store :=
  match f with
  | DBFault.onQuery m =>
      (Except.error (GoError.wrapped "persistence: failed to query url" (GoError.dbFailure m)), st)
  | _ =>
    match selectShortByOriginal st originalURL with
    | some shortCode => (Except.ok shortCode, st)
    | none =>
      match f with
      | DBFault.onInsert m =>
          (Except.error (GoError.wrapped "persistence: failed to insert url" (GoError.dbFailure m)), st)
      | _ =>
        if st.any fun r => r.short = gen then
          (Except.error (GoError.wrapped "persistence: failed to insert url"
              (GoError.dbFailure uniqueShortViolation)), st)
        else
          (Except.ok gen, st ++ [⟨originalURL, gen⟩])

/-- `SQLitePersistence.Get`: look up the original URL by short code; on
`sql.ErrNoRows` return `types.ErrNotFound`, on a driver fault wrap it.
Returns the Go result together with the table state after the call. -/
def get (st : Store) (shortCode : String) (f : Option String) :
    Except GoError String × Store :=
  match f with
  | some m =>
      (Except.error (GoError.wrapped "persistence: failed to get url" (GoError.dbFailure m)), st)
  | none =>
    match selectOriginalByShort st shortCode with
    | some originalURL => (Except.ok originalURL, st)
    | none => (Except.error GoError.notFound, st)

/-- `generateShortCode`: six characters, each indexed into `base62Chars` by a
call of `rand.Intn(len(base62Chars))`.  The random stream is the parameter
`r`; `r i % 62` models the `Intn` contract that the draw lies in `[0, 62)`. -/
def generateShortCode (r : Nat → Nat) : String :=
  String.mk ((List.range shortCodeLength).map fun i =>
    base62Chars.toList.getD (r i % base62Chars.toList.length) ' ')

/-- `Core.ShortenURL`: delegate to `Save`, wrapping any error with the
operation context. -/
def shortenURL (st : Store) (originalURL : String) (gen : String) (f : DBFault) :
    Except GoError String × Store :=
  match save st originalURL gen f with
  | (Except.ok c, st') => (Except.ok c, st')
  | (Except.error e, st') => (Except.error (GoError.wrapped "core: failed to shorten url" e), st')

/-- `Core.GetURL`: delegate to `Get`, wrapping any error with the operation
context. -/
def getURL (st : Store) (shortCode : String) (f : Option String) :
    Except GoError String × Store :=
  match get st shortCode f with
  | (Except.ok o, st') => (Except.ok o, st')
  | (Except.error e, st') => (Except.error (GoError.wrapped "core: failed to get url" e), st')

/-- The schema's two UNIQUE constraints: `original` and `short` are each
unique across the table. -/
def Store.wf (st : Store) : Prop :=
  st.Pairwise fun a b => a.original ≠ b.original ∧ a.short ≠ b.short

/-- Store states reachable from the empty table through `Save` and `Get`
calls. -/
inductive Reachable : Store → Prop
  | init : Reachable []
  | step_save (st : Store) (u g : String) (f : DBFault) :
      Reachable st → Reachable (save st u g f).2
  | step_get (st : Store) (c : String) (f : Option String) :
      Reachable st → Reachable (get st c f).2

/-- A well-formed short code: exactly `shortCodeLength` characters, all drawn
from `base62Chars`. -/
def isValidCode (s : String) : Prop :=
  s.length = shortCodeLength ∧ ∀ c ∈ s.toList, c ∈ base62Chars.toList

instance (s : String) : Decidable (isValidCode s) := by
  unfold isValidCode; infer_instance

instance (st : Store) : Decidable (Store.wf st) := by
  unfold Store.wf; infer_instance

end UrlShortener

deriving instance DecidableEq for Except

namespace UrlShortener

lemma selectShort_some {st : Store} {u c : String}
    (h : selectShortByOriginal st u = some c) :
    ∃ r, r ∈ st ∧ r.original = u ∧ r.short = c := by
  unfold selectShortByOriginal at h
  cases hf : st.find? fun r => r.original = u with
  | none => rw [hf] at h; simp at h
  | some r =>
    rw [hf] at h
    simp at h
    exact ⟨r, List.mem_of_find?_eq_some hf, by simpa using List.find?_some hf, h⟩

lemma selectShort_none {st : Store} {u : String} :
    selectShortByOriginal st u = none ↔ ∀ r ∈ st, r.original ≠ u := by
  unfold selectShortByOriginal
  simp [List.find?_eq_none]

lemma selectOrig_some {st : Store} {c o : String}
    (h : selectOriginalByShort st c = some o) :
    ∃ r, r ∈ st ∧ r.short = c ∧ r.original = o := by
  unfold selectOriginalByShort at h
  cases hf : st.find? fun r => r.short = c with
  | none => rw [hf] at h; simp at h
  | some r =>
    rw [hf] at h
    simp at h
    exact ⟨r, List.mem_of_find?_eq_some hf, by simpa using List.find?_some hf, h⟩

lemma selectOrig_none {st : Store} {c : String} :
    selectOriginalByShort st c = none ↔ ∀ r ∈ st, r.short ≠ c := by
  unfold selectOriginalByShort
  simp [List.find?_eq_none]

lemma save_onQuery_eq (st : Store) (u g m : String) :
    save st u g (DBFault.onQuery m) =
      (Except.error (GoError.wrapped "persistence: failed to query url" (GoError.dbFailure m)), st) :=
  rfl

lemma save_reuse_eq {st : Store} {u s : String} (g : String) {f : DBFault}
    (hf : ∀ m, f ≠ DBFault.onQuery m) (hsel : selectShortByOriginal st u = some s) :
    save st u g f = (Except.ok s, st) := by
  cases f with
  | onQuery m => exact absurd rfl (hf m)
  | ok => simp only [save, hsel]
  | onInsert m => simp only [save, hsel]

lemma save_onInsert_eq {st : Store} {u : String} (g : String) (m : String)
    (hsel : selectShortByOriginal st u = none) :
    save st u g (DBFault.onInsert m) =
      (Except.error (GoError.wrapped "persistence: failed to insert url" (GoError.dbFailure m)), st) := by
  simp only [save, hsel]

lemma save_collision_eq {st : Store} {u g : String}
    (hsel : selectShortByOriginal st u = none)
    (hany : (st.any fun r => r.short = g) = true) :
    save st u g DBFault.ok =
      (Except.error (GoError.wrapped "persistence: failed to insert url"
        (GoError.dbFailure uniqueShortViolation)), st) := by
  simp only [save, hsel]
  rw [if_pos hany]

lemma save_insert_eq {st : Store} {u g : String}
    (hsel : selectShortByOriginal st u = none)
    (hany : (st.any fun r => r.short = g) = false) :
    save st u g DBFault.ok = (Except.ok g, st ++ [⟨u, g⟩]) := by
  simp only [save, hsel]
  rw [if_neg (by simp [hany])]

lemma save_ok_cases {st : Store} {u g c : String} {f : DBFault}
    (h : (save st u g f).1 = Except.ok c) :
    (selectShortByOriginal st u = some c ∧ (save st u g f).2 = st) ∨
    (selectShortByOriginal st u = none ∧ c = g ∧ (∀ r ∈ st, r.short ≠ g) ∧
      (save st u g f).2 = st ++ [⟨u, g⟩]) := by
  cases f with
  | onQuery m => rw [save_onQuery_eq] at h; cases h
  | ok =>
    cases hsel : selectShortByOriginal st u with
    | some s =>
      have heq := save_reuse_eq (f := DBFault.ok) g (fun m h => DBFault.noConfusion h) hsel
      rw [heq] at h
      have hs : s = c := by simpa using h
      exact Or.inl ⟨by rw [hs], by rw [heq]⟩
    | none =>
      cases hany : st.any fun r => r.short = g with
      | true => rw [save_collision_eq hsel hany] at h; cases h
      | false =>
        have heq := save_insert_eq hsel hany
        rw [heq] at h
        have hg : g = c := by simpa using h
        refine Or.inr ⟨rfl, hg.symm, ?_, by rw [heq]⟩
        intro r hr hs
        have : st.any (fun r => r.short = g) = true :=
          List.any_eq_true.mpr ⟨r, hr, by simpa using hs⟩
        rw [this] at hany
        cases hany
  | onInsert m =>
    cases hsel : selectShortByOriginal st u with
    | some s =>
      have heq := save_reuse_eq (f := DBFault.onInsert m) g (fun m' h => DBFault.noConfusion h) hsel
      rw [heq] at h
      have hs : s = c := by simpa using h
      exact Or.inl ⟨by rw [hs], by rw [heq]⟩
    | none => rw [save_onInsert_eq g m hsel] at h; cases h

lemma save_error_frame {st : Store} {u g : String} {f : DBFault} {e : GoError}
    (h : (save st u g f).1 = Except.error e) : (save st u g f).2 = st := by
  cases f with
  | onQuery m => rw [save_onQuery_eq]
  | ok =>
    cases hsel : selectShortByOriginal st u with
    | some s => rw [save_reuse_eq (f := DBFault.ok) g (fun m h => DBFault.noConfusion h) hsel]
    | none =>
      cases hany : st.any fun r => r.short = g with
      | true => rw [save_collision_eq hsel hany]
      | false => rw [save_insert_eq hsel hany] at h; cases h
  | onInsert m =>
    cases hsel : selectShortByOriginal st u with
    | some s => rw [save_reuse_eq (f := DBFault.onInsert m) g (fun m' h => DBFault.noConfusion h) hsel]
    | none => rw [save_onInsert_eq g m hsel]

lemma save_preserves_mem {st : Store} {u g : String} {f : DBFault} {r : URLRow}
    (hr : r ∈ st) : r ∈ (save st u g f).2 := by
  cases hres : (save st u g f).1 with
  | error e => rw [save_error_frame hres]; exact hr
  | ok c =>
    rcases save_ok_cases hres with ⟨_, hst⟩ | ⟨_, _, _, hst⟩
    · rw [hst]; exact hr
    · rw [hst]; exact List.mem_append_left _ hr

lemma get_frame (st : Store) (c : String) (f : Option String) : (get st c f).2 = st := by
  cases f with
  | some m => rfl
  | none =>
    cases hsel : selectOriginalByShort st c with
    | some o => simp only [get, hsel]
    | none => simp only [get, hsel]

lemma wf_short_inj {st : Store} (hwf : Store.wf st) {r r' : URLRow}
    (hr : r ∈ st) (hr' : r' ∈ st) (hs : r.short = r'.short) : r = r' := by
  by_contra hne
  have hsym : Symmetric fun a b : URLRow => a.original ≠ b.original ∧ a.short ≠ b.short := by
    intro a b hab
    exact ⟨fun h => hab.1 h.symm, fun h => hab.2 h.symm⟩
  exact (hwf.forall hsym hr hr' hne).2 hs

lemma wf_orig_inj {st : Store} (hwf : Store.wf st) {r r' : URLRow}
    (hr : r ∈ st) (hr' : r' ∈ st) (ho : r.original = r'.original) : r = r' := by
  by_contra hne
  have hsym : Symmetric fun a b : URLRow => a.original ≠ b.original ∧ a.short ≠ b.short := by
    intro a b hab
    exact ⟨fun h => hab.1 h.symm, fun h => hab.2 h.symm⟩
  exact (hwf.forall hsym hr hr' hne).1 ho

lemma save_ok_row {st : Store} {u g c : String} {f : DBFault}
    (h : (save st u g f).1 = Except.ok c) :
    ∃ r, r ∈ (save st u g f).2 ∧ r.original = u ∧ r.short = c := by
  rcases save_ok_cases h with ⟨hsel, hst⟩ | ⟨_, hcg, _, hst⟩
  · rcases selectShort_some hsel with ⟨r, hr, ho, hs⟩
    exact ⟨r, save_preserves_mem hr, ho, hs⟩
  · refine ⟨⟨u, g⟩, ?_, rfl, hcg.symm⟩
    rw [hst]
    exact List.mem_append_right _ (List.mem_singleton_self _)

lemma get_fault_eq (st : Store) (c m : String) :
    get st c (some m) =
      (Except.error (GoError.wrapped "persistence: failed to get url" (GoError.dbFailure m)), st) :=
  rfl

lemma get_notfound_eq {st : Store} {c : String} (hsel : selectOriginalByShort st c = none) :
    get st c none = (Except.error GoError.notFound, st) := by
  simp only [get, hsel]

lemma get_found_eq {st : Store} {c o : String} (hsel : selectOriginalByShort st c = some o) :
    get st c none = (Except.ok o, st) := by
  simp only [get, hsel]

lemma selectShort_append_single {st : Store} {u : String} (g : String)
    (hsel : selectShortByOriginal st u = none) :
    selectShortByOriginal (st ++ [⟨u, g⟩]) u = some g := by
  have hf : (st.find? fun r => r.original = u) = none := Option.map_eq_none'.mp hsel
  unfold selectShortByOriginal
  rw [List.find?_append, hf, List.find?_cons_of_pos _ (by simp)]
  rfl

lemma selectOrig_append_single {st : Store} {g : String} (u : String)
    (hfresh : ∀ r ∈ st, r.short ≠ g) :
    selectOriginalByShort (st ++ [⟨u, g⟩]) g = some u := by
  have hf : (st.find? fun r => r.short = g) = none :=
    List.find?_eq_none.mpr fun r hr => by simpa using hfresh r hr
  unfold selectOriginalByShort
  rw [List.find?_append, hf, List.find?_cons_of_pos _ (by simp)]
  rfl

lemma save_preserves_wf {st : Store} (u g : String) (f : DBFault)
    (hwf : Store.wf st) : Store.wf (save st u g f).2 := by
  cases hres : (save st u g f).1 with
  | error e => rwa [save_error_frame hres]
  | ok c =>
    rcases save_ok_cases hres with ⟨_, hst⟩ | ⟨hsel, _, hshort, hst⟩
    · rwa [hst]
    · rw [hst]
      unfold Store.wf at hwf ⊢
      rw [List.pairwise_append]
      refine ⟨hwf, List.pairwise_singleton _ _, ?_⟩
      intro a ha b hb
      rw [List.mem_singleton] at hb
      subst hb
      exact ⟨selectShort_none.mp hsel a ha, hshort a ha⟩

lemma reachable_wf {st : Store} (h : Reachable st) : Store.wf st := by
  induction h with
  | init => exact List.Pairwise.nil
  | step_save st u g f _ ih => exact save_preserves_wf u g f ih
  | step_get st c f _ ih => rw [get_frame]; exact ih

lemma selectOrig_of_mem {st : Store} (hwf : Store.wf st) {r : URLRow} (hr : r ∈ st) :
    selectOriginalByShort st r.short = some r.original := by
  cases hsel : selectOriginalByShort st r.short with
  | none => exact absurd rfl (selectOrig_none.mp hsel r hr)
  | some o =>
    rcases selectOrig_some hsel with ⟨r2, hr2, hs2, ho2⟩
    have hrr : r2 = r := wf_short_inj hwf hr2 hr hs2
    rw [← ho2, hrr]

lemma getURL_frame (st : Store) (c : String) (f : Option String) :
    (getURL st c f).2 = (get st c f).2 := by
  unfold getURL
  cases hg : get st c f with
  | mk res st2 => cases res <;> rfl

lemma getURL_error {st : Store} {c : String} {f : Option String} {e : GoError}
    (h : (get st c f).1 = Except.error e) :
    (getURL st c f).1 = Except.error (GoError.wrapped "core: failed to get url" e) := by
  unfold getURL
  cases hg : get st c f with
  | mk res st2 =>
    rw [hg] at h
    cases res with
    | ok o => cases h
    | error e2 =>
      injection h with h2
      rw [h2]

lemma shortenURL_error {st : Store} {u g : String} {f : DBFault} {e : GoError}
    (h : (save st u g f).1 = Except.error e) :
    (shortenURL st u g f).1 = Except.error (GoError.wrapped "core: failed to shorten url" e) := by
  unfold shortenURL
  cases hg : save st u g f with
  | mk res st2 =>
    rw [hg] at h
    cases res with
    | ok o => cases h
    | error e2 =>
      injection h with h2
      rw [h2]

lemma errorsIs_wrapped_kind (ctx : String) (e : GoError) :
    errorsIs (GoError.wrapped ctx e) GoError.notFound = errorsIs e GoError.notFound := by
  simp [errorsIs]

lemma getD_mem_of_lt {l : List Char} {n : Nat} {d : Char} (h : n < l.length) :
    l.getD n d ∈ l := by
  rw [List.getD_eq_getElem?_getD, List.getElem?_eq_getElem h]
  exact List.getElem_mem h

lemma generateShortCode_valid (r : Nat → Nat) : isValidCode (generateShortCode r) := by
  constructor
  · show (String.mk ((List.range shortCodeLength).map _)).length = shortCodeLength
    show ((List.range shortCodeLength).map _).length = shortCodeLength
    rw [List.length_map, List.length_range]
  · intro ch hch
    have hch2 : ch ∈ (List.range shortCodeLength).map fun i =>
        base62Chars.toList.getD (r i % base62Chars.toList.length) ' ' := hch
    rcases List.mem_map.mp hch2 with ⟨i, _, hi⟩
    rw [← hi]
    exact getD_mem_of_lt (Nat.mod_lt _ (by decide))

/-- C1: For every string `u`, calling Shorten(u) twice returns the identical
code both times and creates no second mapping for `u`: when a mapping for `u`
already exists, `Save` looks it up and returns its existing short code without
inserting a new row or generating a new code.  The first call may run with any
fault and any generated code `g1`; as long as it succeeds with code `c`, a
second call (whose SELECT works, with an arbitrary second generated code `g2`
and even a would-be INSERT fault) returns `c` again and leaves the table
unchanged. -/
theorem shorten_idempotent (st : Store) (u g1 g2 c : String) (f1 f2 : DBFault)
    (hf2 : ∀ m, f2 ≠ DBFault.onQuery m)
    (h : (save st u g1 f1).1 = Except.ok c) :
    (save (save st u g1 f1).2 u g2 f2).1 = Except.ok c ∧
    (save (save st u g1 f1).2 u g2 f2).2 = (save st u g1 f1).2 := by
  rcases save_ok_cases h with ⟨hsel, hst⟩ | ⟨hsel, hcg, _, hst⟩
  · rw [hst]
    have heq := save_reuse_eq g2 hf2 hsel
    exact ⟨by rw [heq], by rw [heq]⟩
  · rw [hst]
    subst hcg
    have heq := save_reuse_eq g2 hf2 (selectShort_append_single c hsel)
    exact ⟨by rw [heq], by rw [heq]⟩

/-- C1 witness: a concrete second submission of the same URL returns the
first code and leaves the single stored row untouched. -/
theorem shorten_idempotent_witness :
    (save (save [] "https://example.com/a" "c0XY12" DBFault.ok).2
        "https://example.com/a" "zzQQ99" DBFault.ok).1 = Except.ok "c0XY12" ∧
    (save (save [] "https://example.com/a" "c0XY12" DBFault.ok).2
        "https://example.com/a" "zzQQ99" DBFault.ok).2 =
      (save [] "https://example.com/a" "c0XY12" DBFault.ok).2 :=
  shorten_idempotent [] "https://example.com/a" "c0XY12" "zzQQ99" "c0XY12"
    DBFault.ok DBFault.ok (fun m hm => DBFault.noConfusion hm) (by decide)

/-- C2: If `Save` succeeds for `u` with code `c` on a table satisfying the
UNIQUE constraints, then `Get c` succeeds and returns `u` — the round trip
Resolve(Shorten(u)) = u, on both the reuse path and the insert path. -/
theorem resolve_shorten_roundtrip (st : Store) (u g c : String) (f : DBFault)
    (hwf : Store.wf st) (h : (save st u g f).1 = Except.ok c) :
    (get (save st u g f).2 c none).1 = Except.ok u := by
  rcases save_ok_cases h with ⟨hsel, hst⟩ | ⟨hsel, hcg, hfresh, hst⟩
  · rw [hst]
    rcases selectShort_some hsel with ⟨r, hr, ho, hs⟩
    have hfind := selectOrig_of_mem hwf hr
    rw [hs, ho] at hfind
    rw [get_found_eq hfind]
  · rw [hst]
    subst hcg
    rw [get_found_eq (selectOrig_append_single u hfresh)]

/-- C2 witness: a concrete shorten-then-resolve round trip on the insert
path, starting from the empty (trivially well-formed) table. -/
theorem resolve_shorten_roundtrip_witness :
    (get (save [] "https://example.com/a" "ABC123" DBFault.ok).2 "ABC123" none).1 =
      Except.ok "https://example.com/a" :=
  resolve_shorten_roundtrip [] "https://example.com/a" "ABC123" "ABC123"
    DBFault.ok (by decide) (by decide)

/-- C3: `Get` on a code that is the `short` of no stored mapping fails with
exactly `types.ErrNotFound`; `Get` on any stored code succeeds and returns
that mapping's original URL. -/
theorem resolve_notfound_vs_found (st : Store) (c : String) (hwf : Store.wf st) :
    ((∀ r ∈ st, r.short ≠ c) → (get st c none).1 = Except.error GoError.notFound) ∧
    (∀ r ∈ st, r.short = c → (get st c none).1 = Except.ok r.original) := by
  constructor
  · intro hfresh
    rw [get_notfound_eq (selectOrig_none.mpr hfresh)]
  · intro r hr hs
    have hfind := selectOrig_of_mem hwf hr
    rw [hs] at hfind
    rw [get_found_eq hfind]

/-- C3 witness: on a concrete one-row table, an unknown code yields
`ErrNotFound` and the stored code resolves to its original URL. -/
theorem resolve_notfound_vs_found_witness :
    (get [⟨"https://example.com/a", "ABC123"⟩] "zzzzzz" none).1 =
      Except.error GoError.notFound ∧
    (get [⟨"https://example.com/a", "ABC123"⟩] "ABC123" none).1 =
      Except.ok "https://example.com/a" :=
  ⟨(resolve_notfound_vs_found [⟨"https://example.com/a", "ABC123"⟩] "zzzzzz"
      (by decide)).1 (by decide),
   (resolve_notfound_vs_found [⟨"https://example.com/a", "ABC123"⟩] "ABC123"
      (by decide)).2 ⟨"https://example.com/a", "ABC123"⟩ (by decide) rfl⟩

/-- C4: every code returned by a successful `Save` whose fresh candidate
comes from `generateShortCode` is exactly 6 characters over the 62-symbol
alphabet, provided every short code already stored is well-formed (as holds
when all stored codes were themselves generated); the table keeps this shape.
Moreover the alphabet really has 62 symbols: digits, lowercase and uppercase
letters. -/
theorem shorten_code_wellformed (st : Store) (u : String) (r : Nat → Nat)
    (f : DBFault) (c : String)
    (hst : ∀ row ∈ st, isValidCode row.short)
    (h : (save st u (generateShortCode r) f).1 = Except.ok c) :
    isValidCode c ∧
    (∀ row ∈ (save st u (generateShortCode r) f).2, isValidCode row.short) ∧
    base62Chars.toList.length = 62 ∧
    (∀ ch ∈ base62Chars.toList, ch.isDigit ∨ ch.isLower ∨ ch.isUpper) := by
  refine ⟨?_, ?_, by decide, by decide⟩
  · rcases save_ok_cases h with ⟨hsel, _⟩ | ⟨_, hcg, _, _⟩
    · rcases selectShort_some hsel with ⟨row, hrow, _, hs⟩
      rw [← hs]
      exact hst row hrow
    · rw [hcg]
      exact generateShortCode_valid r
  · intro row hrow
    rcases save_ok_cases h with ⟨_, hst2⟩ | ⟨_, _, _, hst2⟩
    · rw [hst2] at hrow
      exact hst row hrow
    · rw [hst2] at hrow
      rcases List.mem_append.mp hrow with hrow | hrow
      · exact hst row hrow
      · rw [List.mem_singleton] at hrow
        rw [hrow]
        exact generateShortCode_valid r

/-- C4 witness: a concrete generated code on the empty table is well-formed
and so is the resulting single-row table. -/
theorem shorten_code_wellformed_witness :
    isValidCode (generateShortCode fun i => i * 17) ∧
    (∀ row ∈ (save [] "https://example.com/a" (generateShortCode fun i => i * 17)
        DBFault.ok).2, isValidCode row.short) ∧
    base62Chars.toList.length = 62 ∧
    (∀ ch ∈ base62Chars.toList, ch.isDigit ∨ ch.isLower ∨ ch.isUpper) :=
  shorten_code_wellformed [] "https://example.com/a" (fun i => i * 17)
    DBFault.ok (generateShortCode fun i => i * 17) (by decide) (by decide)

/-- C5 counterexample: when the fresh candidate code collides with a stored
mapping's `short`, `Save` does NOT retry and does NOT produce any
GenerationExhausted error: it surfaces the raw SQLite duplicate-key error,
merely wrapped with the insert context — contradicting the claim that the
raw duplicate-key error is not surfaced. -/
theorem collision_no_retry_cex :
    (save [⟨"https://a.example/x", "c0FFee"⟩] "https://b.example/y" "c0FFee" DBFault.ok).1 =
      Except.error (GoError.wrapped "persistence: failed to insert url"
        (GoError.dbFailure uniqueShortViolation)) := by
  decide

/-- C5 (amended): when the INSERT hits the uniqueness-constraint violation on
the freshly generated code, `Save` makes no further generation attempt: it
returns the wrapped raw duplicate-key storage error from the single attempt
and leaves the table unchanged (the code has no retry loop and no
GenerationExhausted error kind). -/
theorem collision_surfaces_raw_error (st : Store) (u g : String)
    (hsel : selectShortByOriginal st u = none)
    (hcol : (st.any fun row => row.short = g) = true) :
    (save st u g DBFault.ok).1 =
      Except.error (GoError.wrapped "persistence: failed to insert url"
        (GoError.dbFailure uniqueShortViolation)) ∧
    (save st u g DBFault.ok).2 = st := by
  rw [save_collision_eq hsel hcol]
  exact ⟨rfl, rfl⟩

/-- C5 witness: the amended behaviour at a concrete colliding input. -/
theorem collision_surfaces_raw_error_witness :
    (save [⟨"https://a.example/x", "QWErty"⟩] "https://b.example/y" "QWErty" DBFault.ok).1 =
      Except.error (GoError.wrapped "persistence: failed to insert url"
        (GoError.dbFailure uniqueShortViolation)) ∧
    (save [⟨"https://a.example/x", "QWErty"⟩] "https://b.example/y" "QWErty" DBFault.ok).2 =
      [⟨"https://a.example/x", "QWErty"⟩] :=
  collision_surfaces_raw_error [⟨"https://a.example/x", "QWErty"⟩]
    "https://b.example/y" "QWErty" (by decide) (by decide)

/-- C6: every table reachable from the empty one satisfies both UNIQUE
constraints (`original` unique and `short` unique); `Save` preserves the
constraints and `Get` never changes the table; consequently successful
shortenings of two distinct URLs return distinct codes. -/
theorem store_uniqueness :
    (∀ st, Reachable st → Store.wf st) ∧
    (∀ st u g f, Store.wf st → Store.wf (save st u g f).2) ∧
    (∀ st c f, (get st c f).2 = st) ∧
    (∀ st u1 u2 g1 g2 f1 f2 c1 c2, Store.wf st → u1 ≠ u2 →
      (save st u1 g1 f1).1 = Except.ok c1 →
      (save (save st u1 g1 f1).2 u2 g2 f2).1 = Except.ok c2 → c1 ≠ c2) := by
  refine ⟨fun st h => reachable_wf h, fun st u g f hwf => save_preserves_wf u g f hwf,
    fun st c f => get_frame st c f, ?_⟩
  intro st u1 u2 g1 g2 f1 f2 c1 c2 hwf hne h1 h2
  have hwf1 : Store.wf (save st u1 g1 f1).2 := save_preserves_wf u1 g1 f1 hwf
  rcases save_ok_row h1 with ⟨r1, hr1, ho1, hs1⟩
  rcases save_ok_cases h2 with ⟨hsel, _⟩ | ⟨_, hcg, hfresh, _⟩
  · rcases selectShort_some hsel with ⟨r2, hr2, ho2, hs2⟩
    intro hcc
    have hrr : r1 = r2 := wf_short_inj hwf1 hr1 hr2 (by rw [hs1, hs2, hcc])
    exact hne (by rw [← ho1, ← ho2, hrr])
  · intro hcc
    exact hfresh r1 hr1 (hs1.trans (hcc.trans hcg))

/-- C6 witness: the empty table is well-formed and two concrete successful
shortenings of distinct URLs return distinct codes. -/
theorem store_uniqueness_witness :
    Store.wf ([] : Store) ∧ ("AAAAAA" : String) ≠ "BBBBBB" :=
  ⟨by decide,
   store_uniqueness.2.2.2 [] "https://a.example" "https://b.example" "AAAAAA" "BBBBBB"
     DBFault.ok DBFault.ok "AAAAAA" "BBBBBB" (by decide) (by decide) (by decide) (by decide)⟩

/-- C7: no operation updates or deletes an existing mapping — every row
present before a `Save` or `Get` call is still present, with both fields
unchanged, after the call, whether it succeeds or fails. -/
theorem mappings_immutable (st : Store) (u g c : String) (f : DBFault)
    (fg : Option String) :
    (∀ r ∈ st, r ∈ (save st u g f).2) ∧ (∀ r ∈ st, r ∈ (get st c fg).2) := by
  refine ⟨fun r hr => save_preserves_mem hr, fun r hr => ?_⟩
  rw [get_frame]
  exact hr

/-- C7 witness: a concrete pre-existing row survives a `Save` of a different
URL and a `Get`. -/
theorem mappings_immutable_witness :
    (⟨"https://a.example", "ABC123"⟩ : URLRow) ∈
      (save [⟨"https://a.example", "ABC123"⟩] "https://b.example" "XYZ789" DBFault.ok).2 ∧
    (⟨"https://a.example", "ABC123"⟩ : URLRow) ∈
      (get [⟨"https://a.example", "ABC123"⟩] "zzzzzz" none).2 :=
  ⟨(mappings_immutable [⟨"https://a.example", "ABC123"⟩] "https://b.example" "XYZ789"
      "zzzzzz" DBFault.ok none).1 ⟨"https://a.example", "ABC123"⟩ (by decide),
   (mappings_immutable [⟨"https://a.example", "ABC123"⟩] "https://b.example" "XYZ789"
      "zzzzzz" DBFault.ok none).2 ⟨"https://a.example", "ABC123"⟩ (by decide)⟩

/-- C8: when the store layer errors, the core layer returns the error wrapped
with the operation's context, and Go's errors.Is classification against
`ErrNotFound` is unchanged by the wrapping; in particular `GetURL` on an
unknown code yields an error still classifiable as NotFound, while a storage
fault yields one that is not. -/
theorem core_error_wrapping (st : Store) (u g c m : String) (f : DBFault)
    (fg : Option String) (e : GoError) :
    ((get st c fg).1 = Except.error e →
      (getURL st c fg).1 = Except.error (GoError.wrapped "core: failed to get url" e) ∧
      errorsIs (GoError.wrapped "core: failed to get url" e) GoError.notFound =
        errorsIs e GoError.notFound) ∧
    ((save st u g f).1 = Except.error e →
      (shortenURL st u g f).1 =
        Except.error (GoError.wrapped "core: failed to shorten url" e) ∧
      errorsIs (GoError.wrapped "core: failed to shorten url" e) GoError.notFound =
        errorsIs e GoError.notFound) ∧
    ((∀ r ∈ st, r.short ≠ c) →
      (getURL st c none).1 =
        Except.error (GoError.wrapped "core: failed to get url" GoError.notFound) ∧
      errorsIs (GoError.wrapped "core: failed to get url" GoError.notFound)
        GoError.notFound = true) ∧
    ((getURL st c (some m)).1 =
        Except.error (GoError.wrapped "core: failed to get url"
          (GoError.wrapped "persistence: failed to get url" (GoError.dbFailure m))) ∧
      errorsIs (GoError.wrapped "core: failed to get url"
        (GoError.wrapped "persistence: failed to get url" (GoError.dbFailure m)))
        GoError.notFound = false) := by
  refine ⟨fun h => ⟨getURL_error h, errorsIs_wrapped_kind _ e⟩,
    fun h => ⟨shortenURL_error h, errorsIs_wrapped_kind _ e⟩, fun hfresh => ?_, ?_⟩
  · have hget : (get st c none).1 = Except.error GoError.notFound := by
      rw [get_notfound_eq (selectOrig_none.mpr hfresh)]
    exact ⟨getURL_error hget, by simp [errorsIs]⟩
  · have hget : (get st c (some m)).1 =
        Except.error (GoError.wrapped "persistence: failed to get url" (GoError.dbFailure m)) := by
      rw [get_fault_eq]
    exact ⟨getURL_error hget, by simp [errorsIs]⟩

/-- C8 witness: at concrete inputs, `GetURL` on an unknown code is
classifiable as NotFound after wrapping, and on an injected storage fault it
is not; the wrapping also matches a concretely observed store error. -/
theorem core_error_wrapping_witness :
    ((getURL [] "zzzzzz" none).1 =
        Except.error (GoError.wrapped "core: failed to get url" GoError.notFound) ∧
      errorsIs (GoError.wrapped "core: failed to get url" GoError.notFound)
        GoError.notFound = true) ∧
    ((getURL [] "zzzzzz" (some "disk I/O error")).1 =
        Except.error (GoError.wrapped "core: failed to get url"
          (GoError.wrapped "persistence: failed to get url"
            (GoError.dbFailure "disk I/O error"))) ∧
      errorsIs (GoError.wrapped "core: failed to get url"
        (GoError.wrapped "persistence: failed to get url"
          (GoError.dbFailure "disk I/O error"))) GoError.notFound = false) :=
  ⟨(core_error_wrapping [] "u" "g" "zzzzzz" "disk I/O error" DBFault.ok none
      GoError.notFound).2.2.1 (by decide),
   (core_error_wrapping [] "u" "g" "zzzzzz" "disk I/O error" DBFault.ok none
      GoError.notFound).2.2.2⟩

/-- C9: `Get` (and `GetURL` above it) is a pure read — the table after the
call equals the table before it, whether the result is an original URL,
`ErrNotFound`, or a wrapped storage error. -/
theorem resolve_pure_read (st : Store) (c : String) (f : Option String) :
    (get st c f).2 = st ∧ (getURL st c f).2 = st := by
  refine ⟨get_frame st c f, ?_⟩
  rw [getURL_frame]
  exact get_frame st c f

/-- C10: `Save` is atomic with respect to failure — whenever it returns an
error (from the initial lookup fault, an insert fault, or the uniqueness
collision), the table after the call equals the table before it. -/
theorem shorten_atomic_on_error (st : Store) (u g : String) (f : DBFault)
    (e : GoError) (h : (save st u g f).1 = Except.error e) :
    (save st u g f).2 = st :=
  save_error_frame h

/-- C10 witness: a concrete failing `Save` (SELECT-side I/O fault) leaves the
empty table empty. -/
theorem shorten_atomic_on_error_witness :
    (save [] "https://example.com/a" "ABC123" (DBFault.onQuery "disk I/O error")).2 = [] :=
  shorten_atomic_on_error [] "https://example.com/a" "ABC123"
    (DBFault.onQuery "disk I/O error")
    (GoError.wrapped "persistence: failed to query url" (GoError.dbFailure "disk I/O error"))
    (by decide)

end UrlShortener
